import Mathlib

/-
Verification of the workflow engine in src/aiida/orm/workflow.py against its
natural-language specification.

The embedding below translates the relevant parts of the source into Lean.
Python dictionaries become association lists, Django querysets become lists of
records, and exceptions become an explicit error type threaded through Except.
Parts of the repository that the source imports but that are not present in
the source tree (the aiida.common.datastructures enums, the DbWorkflow and
DbWorkflowStep Django models, the Calculation class) are modelled from the
specification; each such definition carries a doc comment beginning
"Modelled from the spec:".
-/

namespace AiidaWf

/-- Modelled from the spec: the workflow/step state enumeration of
aiida.common.datastructures (wf_states), not present under src.
States: CREATED, INITIALIZED, RUNNING, SLEEP, FINISHED, ERROR. -/
inductive WfState where
  | CREATED
  | INITIALIZED
  | RUNNING
  | SLEEP
  | FINISHED
  | ERROR
deriving DecidableEq, Repr

/-- Modelled from the spec: the calculation state enumeration of
aiida.common.datastructures (calc_states), not present under src.  Only the
states the workflow engine touches are modelled: NEW and RUNNING as
non-terminal states, FINISHED and KILLED as terminal states. -/
inductive CalcState where
  | NEW
  | RUNNING
  | FINISHED
  | KILLED
deriving DecidableEq, Repr

/-- Modelled from the spec: a calculation state is terminal when it is
FINISHED or KILLED. -/
def CalcState.terminal : CalcState → Bool
  | CalcState.FINISHED => true
  | CalcState.KILLED => true
  | _ => false

/-- Modelled from the spec: the reserved next-call exit sentinel wf_exit_call
of aiida.common.datastructures, the string denoting "no further steps". -/
def wf_exit_call : String := "__exit__"

/-- Modelled from the spec: the reserved next-call default sentinel
wf_default_call of aiida.common.datastructures, the value of a step record
whose next call has not been set yet. -/
def wf_default_call : String := "__default__"

/-- Modelled from the spec: a calculation handle as the engine sees it, an
opaque record with an identifier and a state (the engine only inspects and
forces the state). -/
structure CalcRec where
  id : Nat
  state : CalcState
deriving DecidableEq, Repr

/-- Modelled from the spec: Calculation.kill forces the calculation to a
terminal state.  The calculation subsystem is external to the source; the
engine treats kill as an opaque transition to a terminal state. -/
def calcKill (c : CalcRec) : CalcRec :=
  { c with state := CalcState.KILLED }

/-- The scalar fields of a persisted DbWorkflow record that the claims touch:
script_path and script_md5 (written by Workflow.store, lines 234-239), the
workflow status and the report text (a list of appended lines). -/
structure WfData where
  script_path : String
  script_md5 : String
  status : WfState
  report : List String
deriving DecidableEq, Repr

/-- The scalar fields of a persisted DbWorkflowStep record: name, status and
nextcall, as read by Workflow.step (lines 425-448) and written by
Workflow.next (lines 512-540). -/
structure StepData where
  name : String
  status : WfState
  nextcall : String
deriving DecidableEq, Repr

mutual
/-- A persisted workflow record together with its step records
(DbWorkflow plus its steps relation).  Sub-workflows attached to a step are
embedded structurally, so that the recursive traversals of Workflow.kill and
of the step decorator cleanup can be expressed. -/
inductive WfInstT where
  | mk : WfData → List StepT → WfInstT

/-- A persisted step record together with its two attachment relations:
the attached calculations and the attached sub-workflows. -/
inductive StepT where
  | mk : StepData → List CalcRec → List WfInstT → StepT
end

def WfInstT.data : WfInstT → WfData
  | WfInstT.mk d _ => d

def WfInstT.steps : WfInstT → List StepT
  | WfInstT.mk _ s => s

def StepT.sdata : StepT → StepData
  | StepT.mk d _ _ => d

def StepT.calcs : StepT → List CalcRec
  | StepT.mk _ c _ => c

def StepT.subwfs : StepT → List WfInstT
  | StepT.mk _ _ w => w

def StepT.name (s : StepT) : String := s.sdata.name

def StepT.status (s : StepT) : WfState := s.sdata.status

def StepT.nextcall (s : StepT) : String := s.sdata.nextcall

mutual
/-- Workflow.kill (lines 626-637): for every step of this workflow whose
status is RUNNING, set every attached calculation to FINISHED
(kill_step_calculations, lines 614-619) and recursively kill every attached
sub-workflow; finally set the workflow status to FINISHED.  Steps whose
status is not RUNNING are left untouched. -/
def killWf : WfInstT → WfInstT
  | WfInstT.mk d steps =>
      WfInstT.mk { d with status := WfState.FINISHED } (killRunningSteps steps)

def killRunningSteps : List StepT → List StepT
  | [] => []
  | s :: rest => killRunningStep s :: killRunningSteps rest

/-- The body of the loop in Workflow.kill for one step: only steps returned
by get_steps(state=RUNNING) are processed. -/
def killRunningStep : StepT → StepT
  | StepT.mk d calcs subwfs =>
      if d.status = WfState.RUNNING then
        StepT.mk d (kill_step_calculations calcs) (killSubwfs subwfs)
      else
        StepT.mk d calcs subwfs

/-- Workflow.kill_step_calculations (lines 614-619): every calculation of
the step has its state set to calc_states.FINISHED. -/
def kill_step_calculations : List CalcRec → List CalcRec
  | [] => []
  | c :: rest => { c with state := CalcState.FINISHED } :: kill_step_calculations rest

def killSubwfs : List WfInstT → List WfInstT
  | [] => []
  | w :: rest => killWf w :: killSubwfs rest
end

/-- Update every step record with the given name (the (workflow, name) pair
is unique per the persistence layer, so in a well-formed record at most one
entry matches). -/
def updateSteps (steps : List StepT) (name : String) (f : StepT → StepT) : List StepT :=
  steps.map (fun s => if s.name = name then f s else s)

def updateStepT (inst : WfInstT) (name : String) (f : StepT → StepT) : WfInstT :=
  WfInstT.mk inst.data (updateSteps inst.steps name f)

/-- The step record of the workflow with the given name, when present:
the query dbworkflowinstance.steps.get(name=..., user=...). -/
def findStep (inst : WfInstT) (name : String) : Option StepT :=
  inst.steps.find? (fun s => s.name = name)

/-- A Python bound method or function as the next engine sees it: its
name attribute and the two optional attributes that the step decorator
injects (is_wf_step and wf_step_name).  A plain undecorated function has
neither attribute. -/
structure Method where
  name : String
  is_wf_step : Option Bool
  wf_step_name : Option String
deriving DecidableEq, Repr

/-- The Python exceptions the translated code can raise.  The source raises
ValidationError, AiidaException and InternalError with a message, Django
raises ObjectDoesNotExist from queryset get, NotExistent wraps a missing
record, and a plain attribute access on an object lacking the attribute
raises AttributeError (carrying the attribute name here). -/
inductive WfError where
  | validationError : String → WfError
  | aiidaException : String → WfError
  | internalError : String → WfError
  | notExistent : String → WfError
  | objectDoesNotExist : WfError
  | attributeError : String → WfError
deriving DecidableEq, Repr

/-- Observable persistent mutations, in program order.  Each mutation site of
the translated code emits the corresponding event right where it performs the
write, so that temporal claims (flush-before-pointer, kill-before-clear)
are statements about the emitted trace. -/
inductive Event where
  | attachCalc : CalcRec → Event
  | attachSubwf : WfInstT → Event
  | setNextcall : String → Event
  | setWfStatus : WfState → Event
  | setStepStatus : String → WfState → Event
  | killedSubwf : WfInstT → Event
  | clearedSubwfs : Event
  | killedCalc : CalcRec → Event
  | clearedCalcs : Event
  | stepGetOrCreate : String → Event

/-- The in-memory Workflow object: the to-be-stored flag, the caller script
path captured from the stack at construction (self.caller_file), the
persisted record (self.dbworkflowinstance together with its steps), and the
two in-memory attachment buffers keyed by caller method name
(attach_calc_lazy_storage and attach_subwf_lazy_storage, line 115-116). -/
structure WfCtx where
  to_be_stored : Bool
  caller_file : String
  inst : WfInstT
  attach_calc_lazy_storage : List (String × List CalcRec)
  attach_subwf_lazy_storage : List (String × List WfInstT)

/-- Dictionary membership plus indexing: the buffer for a caller name, or the
empty list when the key is absent (the source guards the flush loop with
"if caller_method in self.attach_calc_lazy_storage"). -/
def lookupBuf {α : Type} (buf : List (String × List α)) (key : String) : List α :=
  match buf.find? (fun p => p.1 = key) with
  | some p => p.2
  | none => []

namespace Workflow

/-- Workflow.store (lines 223-247), restricted to the fields the claims
touch: a fresh DbWorkflow record is created whose script_path is the caller
file and whose script_md5 is the hexdigest of md5 applied to
self.caller_file - that is, to the path string itself, not to the content of
the file at that path.  The fresh record has no steps; its initial status is
CREATED (modelled from the spec, the DbWorkflow model is not under src).
After the create, the to-be-stored flag is cleared.  The md5 function is a
parameter of the embedding, since hashlib is external; only which string it
is applied to matters to the claims. -/
def store (md5 : String → String) (cls : WfCtx) : WfCtx :=
  { cls with
      inst := WfInstT.mk
        { script_path := cls.caller_file
          script_md5 := md5 cls.caller_file
          status := WfState.CREATED
          report := [] } []
      to_be_stored := false }

/-- The fingerprint of the current content of the file at a path: md5 applied
to the content the filesystem holds at that path.  This follows the words of
the specification ("hash(current_content(script_path))"); the source code of
Workflow.next never computes it, which is what claim C1 is about. -/
def contentFingerprint (md5 : String → String) (fs : String → String)
    (path : String) : String :=
  md5 (fs path)

/-- Workflow.get_step (lines 362-386) for a string argument: querying the
reserved exit-sentinel name raises InternalError; otherwise the step record
is returned, or none when absent (ObjectDoesNotExist is caught). -/
def get_step (inst : WfInstT) (name : String) : Except WfError (Option StepT) :=
  if name = wf_exit_call then
    Except.error (WfError.internalError
      ("Cannot query a step with name " ++ name ++ ", reserved string"))
  else
    Except.ok (findStep inst name)

/-- Workflow.has_step (lines 395-397): not (get_step(method) == None). -/
def has_step (inst : WfInstT) (name : String) : Except WfError Bool := do
  let st ← get_step inst name
  pure st.isSome

/-- The flush loop of Workflow.next for calculations (lines 515-517): each
buffered calculation is appended, in buffer order, to the step record with
the caller name (DbWorkflowStep.add_calculation, modelled from the spec as
an append to the persistent attachment list).  Each append emits its
attachCalc event at the write site. -/
def attachCalcsLoop (inst : WfInstT) (caller : String) :
    List CalcRec → WfInstT × List Event
  | [] => (inst, [])
  | c :: rest =>
      let inst1 := updateStepT inst caller
        (fun s => StepT.mk s.sdata (s.calcs ++ [c]) s.subwfs)
      let (inst2, evs) := attachCalcsLoop inst1 caller rest
      (inst2, Event.attachCalc c :: evs)

/-- The flush loop of Workflow.next for sub-workflows (lines 520-522):
each buffered sub-workflow is appended, in buffer order, to the step record
with the caller name (DbWorkflowStep.add_sub_workflow, modelled from the
spec as an append to the persistent attachment list). -/
def attachSubwfsLoop (inst : WfInstT) (caller : String) :
    List WfInstT → WfInstT × List Event
  | [] => (inst, [])
  | w :: rest =>
      let inst1 := updateStepT inst caller
        (fun s => StepT.mk s.sdata s.calcs (s.subwfs ++ [w]))
      let (inst2, evs) := attachSubwfsLoop inst1 caller rest
      (inst2, Event.attachSubwf w :: evs)

/-- Workflow.next (lines 471-540).  In source order:
1.  the md5 of the script path string is compared with the persisted
    script_md5 (lines 479-484); on mismatch ValidationError is raised and
    nothing has been mutated;
2.  a None next_method raises AiidaException (line 497);
3.  a caller method unknown to the step registry raises AiidaException
    (lines 500-501);
4.  lines 503-507: when next_method is not the exit sentinel, the source
    evaluates getattr(next_method, "is_wf_step", None) inside a
    try/except AttributeError.  getattr with a default argument never raises
    AttributeError and the retrieved value is not inspected, so this block
    can neither raise nor branch: it is translated as a no-op;
5.  the caller step record is fetched (line 512, queryset get);
6.  the buffered calculations, then the buffered sub-workflows, are appended
    to the step record (lines 514-522);
7.  the next-call name is resolved: the exit sentinel itself, or the plain
    attribute access next_method.wf_step_name, which raises AttributeError
    when the attribute is absent (lines 525-528);
8.  the nextcall pointer is written, then the workflow status and the caller
    step status are set to RUNNING (lines 531-540).
The returned trace lists the persistent writes in program order. -/
def next (md5 : String → String) (cls : WfCtx) (caller_method : String)
    (next_method : Option Method) : Except WfError (WfCtx × List Event) := do
  let md := cls.inst.data.script_md5
  let script_path := cls.inst.data.script_path
  if ¬ md = md5 script_path then
    throw (WfError.validationError
      ("Unable to load the original workflow module from " ++ script_path
        ++ ", MD5 has changed"))
  let nm ← match next_method with
    | none => throw (WfError.aiidaException
        "The next method is None, probably you passed a method with parenthesis ??")
    | some m => pure m
  let hs ← has_step cls.inst caller_method
  if ¬ hs then
    throw (WfError.aiidaException
      "The caller method is either not a step or has not been registered as one")
  -- lines 503-509: getattr with a default never raises; no state is read or
  -- written here (the else branch only prints).
  let _method_step ← match findStep cls.inst caller_method with
    | some s => pure s
    | none => throw WfError.objectDoesNotExist
  let calcs := lookupBuf cls.attach_calc_lazy_storage caller_method
  let (inst1, evs1) := attachCalcsLoop cls.inst caller_method calcs
  let subwfs := lookupBuf cls.attach_subwf_lazy_storage caller_method
  let (inst2, evs2) := attachSubwfsLoop inst1 caller_method subwfs
  let next_method_name ← if ¬ nm.name = wf_exit_call then
      match nm.wf_step_name with
      | some n => pure n
      | none => throw (WfError.attributeError "wf_step_name")
    else
      pure wf_exit_call
  let inst3 := updateStepT inst2 caller_method
    (fun s => StepT.mk { s.sdata with nextcall := next_method_name } s.calcs s.subwfs)
  let inst4 := WfInstT.mk { inst3.data with status := WfState.RUNNING } inst3.steps
  let inst5 := updateStepT inst4 caller_method
    (fun s => StepT.mk { s.sdata with status := WfState.RUNNING } s.calcs s.subwfs)
  pure ({ cls with inst := inst5 },
    evs1 ++ evs2
      ++ [Event.setNextcall next_method_name,
          Event.setWfStatus WfState.RUNNING,
          Event.setStepStatus caller_method WfState.RUNNING])

/-- Workflow.has_finished_ok (lines 343-345): the workflow status is tested
for membership in the list [FINISHED, SLEEP]. -/
def has_finished_ok (cls : WfCtx) : Bool :=
  [WfState.FINISHED, WfState.SLEEP].contains cls.inst.data.status

/-- Workflow.append_to_report for a workflow with no parent step
(lines 677-678): the text is appended to the own report field
(DbWorkflow.append_to_report, modelled from the spec as appending one line
to the report text).  The step decorator below is stated for root
workflows, so its report appends take this branch; the parent-forwarding
branch is modelled separately on the flat record store for claim C8. -/
def appendReportRoot (cls : WfCtx) (text : String) : WfCtx :=
  let d := cls.inst.data
  { cls with inst := WfInstT.mk ({ d with report := d.report ++ [text] }) cls.inst.steps }

/-- Modelled from the spec: a fresh step record as
dbworkflowinstance.steps.get_or_create makes one (the DbWorkflowStep model
is not under src): status INITIALIZED, nextcall the default sentinel, empty
attachment lists. -/
def newStep (name : String) : StepT :=
  StepT.mk { name := name, status := WfState.INITIALIZED,
             nextcall := wf_default_call } [] []

/-- The ERROR/SLEEP cleanup of the step decorator (lines 436-444), with its
event trace.  In source order: every sub-workflow attached to the step is
killed (Workflow.kill, i.e. killWf, mutating the embedded record), the
sub-workflow list is cleared (remove_sub_workflows), every attached
calculation is killed (Calculation.kill), and the calculation list is
cleared (remove_calculations).  The killedSubwf and killedCalc events carry
the post-kill records. -/
def cleanupStep (inst : WfInstT) (wrapped : String) (st : StepT) :
    WfInstT × List Event :=
  let inst1 := updateStepT inst wrapped
    (fun s => StepT.mk s.sdata s.calcs (s.subwfs.map killWf))
  let inst2 := updateStepT inst1 wrapped
    (fun s => StepT.mk s.sdata s.calcs [])
  let inst3 := updateStepT inst2 wrapped
    (fun s => StepT.mk s.sdata (s.calcs.map calcKill) s.subwfs)
  let inst4 := updateStepT inst3 wrapped
    (fun s => StepT.mk s.sdata [] s.subwfs)
  (inst4,
    st.subwfs.map (fun w => Event.killedSubwf (killWf w))
      ++ [Event.clearedSubwfs]
      ++ st.calcs.map (fun c => Event.killedCalc (calcKill c))
      ++ [Event.clearedCalcs])

/-- Everything the wrapper produced by the step decorator (lines 412-448)
does before executing the wrapped method body:
1.  if the workflow is still to be stored, store it (lines 418-419);
2.  positional arguments raise AiidaException (lines 421-422);
3.  the re-entry guard (lines 425-433): when a step record for the wrapped
    name exists and its status is neither ERROR nor SLEEP and its nextcall
    is neither the default sentinel nor the wrapped name itself, raise
    AiidaException (StepAlreadyInitialized);
4.  when a step record exists in ERROR or SLEEP, run the cleanup
    (lines 436-444);
5.  get_or_create the step record (line 448).
The result is the state handed to the wrapped body together with the trace
of persistent writes performed so far. -/
def stepWrapperPre (md5 : String → String) (wrapped : String) (argsLen : Nat)
    (cls0 : WfCtx) : Except WfError (WfCtx × List Event) := do
  let cls := if cls0.to_be_stored then store md5 cls0 else cls0
  if 0 < argsLen then
    throw (WfError.aiidaException
      "A step method cannot have any argument, use add_attribute to the workflow")
  let hs ← has_step cls.inst wrapped
  let guardFires : Bool := hs && (match findStep cls.inst wrapped with
    | some st => ! (st.status == WfState.ERROR || st.status == WfState.SLEEP
        || st.nextcall == wf_default_call || st.nextcall == wrapped)
    | none => false)
  if guardFires then
    throw (WfError.aiidaException
      ("The step " ++ wrapped
        ++ " has already been initialized, cannot change this outside the parent workflow !"))
  let (inst1, evs1) := match findStep cls.inst wrapped with
    | some st =>
        if st.status = WfState.ERROR ∨ st.status = WfState.SLEEP then
          cleanupStep cls.inst wrapped st
        else (cls.inst, [])
    | none => (cls.inst, [])
  let inst2 := match findStep inst1 wrapped with
    | some _ => inst1
    | none => WfInstT.mk inst1.data (inst1.steps ++ [newStep wrapped])
  pure ({ cls with inst := inst2 },
    evs1 ++ [Event.stepGetOrCreate wrapped])

/-- The full wrapper produced by the step decorator (lines 412-468).  After
the pre-body phase, the wrapped body runs on the workflow object.  A body is
a state transformer returning the mutated workflow object together with an
optional exception payload (the traceback text): Python mutations performed
before a raise persist, which the pair captures.  On an exception the bare
except branch (lines 452-458) appends two lines to the report and sets the
step status to ERROR; the wrapper then returns None normally, so no body
exception escapes it. -/
def stepWrapper (md5 : String → String) (wrapped : String)
    (body : WfCtx → WfCtx × Option String) (argsLen : Nat)
    (cls0 : WfCtx) : Except WfError (WfCtx × List Event) := do
  let (pre, tr) ← stepWrapperPre md5 wrapped argsLen cls0
  match body pre with
  | (s1, none) => pure (s1, tr)
  | (s1, some tb) =>
      let s2 := appendReportRoot s1
        ("ERROR ! This workflow got and error in the " ++ wrapped
          ++ " method, we report down the stack trace")
      let s3 := appendReportRoot s2 ("full traceback: " ++ tb)
      let inst4 := updateStepT s3.inst wrapped
        (fun s => StepT.mk ({ s.sdata with status := WfState.ERROR }) s.calcs s.subwfs)
      let s4 := { s3 with inst := inst4 }
      pure (s4, tr ++ [Event.setStepStatus wrapped WfState.ERROR])

end Workflow

/-- A persisted workflow record in the flat store used to model report
forwarding: the optional parent workflow (the pk of the parent of the
parent_workflow_step, when the workflow is a sub-workflow) and the report
field. -/
structure WfRRec where
  parent : Option Nat
  report : List String
deriving DecidableEq, Repr

/-- The flat record store keyed by pk. -/
def RecStore := List (Nat × WfRRec)

def lookupRec (db : List (Nat × WfRRec)) (pk : Nat) : Option WfRRec :=
  (db.find? (fun p => p.1 = pk)).map (fun p => p.2)

def updateRec (db : List (Nat × WfRRec)) (pk : Nat) (f : WfRRec → WfRRec) :
    List (Nat × WfRRec) :=
  db.map (fun p => if p.1 = pk then (p.1, f p.2) else p)

namespace Workflow

/-- Workflow.append_to_report (lines 675-680) on the flat record store: when
the workflow has no parent workflow step, the text is appended to its own
report (DbWorkflow.append_to_report, modelled from the spec as appending one
line); otherwise the parent workflow is loaded by uuid and the append is
forwarded to it, recursively reaching the root.  The recursion is bounded by
fuel, with none signalling exhausted fuel or a dangling reference (in Python
a missing record would raise NotExistent and a cyclic parent chain would
recurse forever). -/
def append_to_report (db : List (Nat × WfRRec)) (pk : Nat) (text : String) :
    Nat → Option (List (Nat × WfRRec))
  | 0 => none
  | fuel + 1 =>
      match lookupRec db pk with
      | none => none
      | some r =>
          match r.parent with
          | none => some (updateRec db pk
              (fun q => { q with report := q.report ++ [text] }))
          | some p => append_to_report db p text fuel

/-- The root of the parent chain starting at pk, following the same
traversal as append_to_report. -/
def rootOf (db : List (Nat × WfRRec)) (pk : Nat) : Nat → Option Nat
  | 0 => none
  | fuel + 1 =>
      match lookupRec db pk with
      | none => none
      | some r =>
          match r.parent with
          | none => some pk
          | some p => rootOf db p fuel

/-- The scalar fields of a persisted DbWorkflow record that the resumer
reads: uuid, module and module_class. -/
structure DbWfId where
  uuid : String
  module : String
  module_class : String
deriving DecidableEq, Repr

/-- Workflow.get_subclass_from_dbnode (lines 686-711).  The module named by
the record is imported (importlib is external: the import table maps a
module name to the list of its attribute names, none meaning ImportError,
which the source converts to InternalError).  Then the module dictionary is
scanned: on the entry whose name equals the stored module_class, the class
is instantiated with the stored uuid and returned.  When the loop finds no
matching attribute the function falls off its end and returns None. -/
def get_subclass_from_dbnode (modules : String → Option (List String))
    (wf_db : DbWfId) : Except WfError (Option String) :=
  match modules wf_db.module with
  | none => Except.error (WfError.internalError
      ("Unable to load the workflow module " ++ wf_db.module))
  | some dict =>
      match dict.find? (fun elem_name => wf_db.module_class = elem_name) with
      | some _ => Except.ok (some wf_db.uuid)
      | none => Except.ok none

def lookupWfByPk (records : List (Nat × DbWfId)) (pk : Nat) : Option DbWfId :=
  (records.find? (fun p => p.1 = pk)).map (fun p => p.2)

def lookupWfByUuid (records : List (Nat × DbWfId)) (uuid : String) : Option DbWfId :=
  (records.find? (fun p => p.2.uuid = uuid)).map (fun p => p.2)

/-- Workflow.get_subclass_from_pk (lines 713-728): the record is fetched by
pk; a missing record raises NotExistent; otherwise the result of
get_subclass_from_dbnode is returned as is - in particular a None from the
attribute scan is passed through, not turned into an error. -/
def get_subclass_from_pk (modules : String → Option (List String))
    (records : List (Nat × DbWfId)) (pk : Nat) : Except WfError (Option String) :=
  match lookupWfByPk records pk with
  | some inst => get_subclass_from_dbnode modules inst
  | none => Except.error (WfError.notExistent
      ("No entry with pk=" ++ toString pk ++ " found"))

/-- Workflow.get_subclass_from_uuid (lines 730-745): as get_subclass_from_pk
but fetching by uuid. -/
def get_subclass_from_uuid (modules : String → Option (List String))
    (records : List (Nat × DbWfId)) (uuid : String) :
    Except WfError (Option String) :=
  match lookupWfByUuid records uuid with
  | some inst => get_subclass_from_dbnode modules inst
  | none => Except.error (WfError.notExistent
      ("No entry with the UUID " ++ uuid ++ " found"))

/-- The state a successful next() leaves behind, written out as the
composition of the writes the tail of Workflow.next performs in program
order: flush of the calculation buffer, flush of the sub-workflow buffer,
the nextcall write, the workflow status write, the step status write.  Used
only to phrase the characterization theorem of next. -/
def nextFinal (cls : WfCtx) (caller nName : String) : WfCtx :=
  let cs := lookupBuf cls.attach_calc_lazy_storage caller
  let ws := lookupBuf cls.attach_subwf_lazy_storage caller
  let inst1 := (Workflow.attachCalcsLoop cls.inst caller cs).1
  let inst2 := (Workflow.attachSubwfsLoop inst1 caller ws).1
  let inst3 := updateStepT inst2 caller
    (fun s => StepT.mk ({ s.sdata with nextcall := nName }) s.calcs s.subwfs)
  let inst4 := WfInstT.mk ({ inst3.data with status := WfState.RUNNING }) inst3.steps
  let inst5 := updateStepT inst4 caller
    (fun s => StepT.mk ({ s.sdata with status := WfState.RUNNING }) s.calcs s.subwfs)
  { cls with inst := inst5 }

end Workflow

/-- Every calculation in the list is in state FINISHED. -/
def calcsAllFinished : List CalcRec → Bool
  | [] => true
  | c :: rest => (c.state == CalcState.FINISHED) && calcsAllFinished rest

mutual
/-- The property claim C7 asserts of the post-kill state, as the claim words
it: every sub-workflow reachable through any step of the tree, whatever the
step status, has workflow status FINISHED. -/
def subwfsAllFinished : WfInstT → Bool
  | WfInstT.mk _ steps => stepsSubwfsAllFinished steps

def stepsSubwfsAllFinished : List StepT → Bool
  | [] => true
  | s :: rest => stepSubwfsAllFinished s && stepsSubwfsAllFinished rest

def stepSubwfsAllFinished : StepT → Bool
  | StepT.mk _ _ subwfs => subwfsListAllFinished subwfs

def subwfsListAllFinished : List WfInstT → Bool
  | [] => true
  | w :: rest =>
      (w.data.status == WfState.FINISHED) && subwfsAllFinished w
        && subwfsListAllFinished rest
end

mutual
/-- The closure that Workflow.kill actually establishes: the workflow status
is FINISHED, and for every step whose status is RUNNING (kill does not
change step statuses) all attached calculations are FINISHED and all
attached sub-workflows recursively satisfy the same closure.  Sub-workflows
hanging off steps that are not RUNNING are not constrained. -/
def killedClosureWf : WfInstT → Bool
  | WfInstT.mk d steps =>
      (d.status == WfState.FINISHED) && killedClosureSteps steps

def killedClosureSteps : List StepT → Bool
  | [] => true
  | s :: rest => killedClosureStep s && killedClosureSteps rest

def killedClosureStep : StepT → Bool
  | StepT.mk d calcs subwfs =>
      if d.status = WfState.RUNNING then
        calcsAllFinished calcs && killedClosureList subwfs
      else true

def killedClosureList : List WfInstT → Bool
  | [] => true
  | w :: rest => killedClosureWf w && killedClosureList rest
end

/-
Concrete fixtures used by the counterexample, code-bug and witness theorems.
exMd5 stands in for the external md5 hexdigest function (only which string
it is applied to matters to the claims); exFs is a filesystem assigning the
current content to every path.
-/

def exMd5 (s : String) : String := "h" ++ s

def exFs : String → String := fun _ => "print 42"

def exStep1 : StepT := StepT.mk ⟨"s1", WfState.RUNNING, wf_default_call⟩ [] []

def exInst : WfInstT :=
  WfInstT.mk ⟨"/wf/script.py", exMd5 "/wf/script.py", WfState.RUNNING, []⟩ [exStep1]

/-- A stored workflow whose script_md5 is what Workflow.store persisted for
it (the md5 of the path string), with one registered step s1 and one
buffered calculation for s1. -/
def exCls : WfCtx :=
  ⟨false, "/wf/script.py", exInst, [("s1", [⟨7, CalcState.RUNNING⟩])], []⟩

/-- A not-yet-stored workflow; the record field is a placeholder that
Workflow.store overwrites (in Python no record exists before store). -/
def exFresh : WfCtx :=
  ⟨true, "/wf/script.py", WfInstT.mk ⟨"", "", WfState.CREATED, []⟩ [], [], []⟩

/-- A method decorated by the step decorator, as next receives it. -/
def mMiddle : Method := ⟨"middle", some true, some "middle"⟩

/-- The exit sentinel passed as next method: its name is the reserved
exit-call string. -/
def mExit : Method := ⟨wf_exit_call, none, none⟩

/-- A plain function never decorated as a step: neither injected attribute
is present. -/
def mFoo : Method := ⟨"foo", none, none⟩

/-- The record exCls ends in after a successful next(mMiddle) from s1: the
buffered calculation appended, nextcall written, both statuses RUNNING. -/
def exInstAfterNext : WfInstT :=
  WfInstT.mk ⟨"/wf/script.py", exMd5 "/wf/script.py", WfState.RUNNING, []⟩
    [StepT.mk ⟨"s1", WfState.RUNNING, "middle"⟩ [⟨7, CalcState.RUNNING⟩] []]

/-- The record exCls ends in after a successful next(mExit) from s1: the
exit sentinel written as nextcall. -/
def exInstAfterExit : WfInstT :=
  WfInstT.mk ⟨"/wf/script.py", exMd5 "/wf/script.py", WfState.RUNNING, []⟩
    [StepT.mk ⟨"s1", WfState.RUNNING, wf_exit_call⟩ [⟨7, CalcState.RUNNING⟩] []]

def subRunning : WfInstT := WfInstT.mk ⟨"p", "m", WfState.RUNNING, []⟩ []

def exSleepStep : StepT := StepT.mk ⟨"s1", WfState.SLEEP, wf_default_call⟩ [] [subRunning]

/-- A workflow whose only step is held in SLEEP and carries a RUNNING
sub-workflow: the kill counterexample. -/
def exTree : WfInstT := WfInstT.mk ⟨"p", "m", WfState.RUNNING, []⟩ [exSleepStep]

def errStep : StepT :=
  StepT.mk ⟨"s2", WfState.ERROR, wf_default_call⟩ [⟨3, CalcState.RUNNING⟩] [subRunning]

/-- A stored workflow whose step s2 is halted in ERROR with one attached
calculation and one attached sub-workflow. -/
def exCls2 : WfCtx :=
  ⟨false, "/wf/script.py",
    WfInstT.mk ⟨"/wf/script.py", "x", WfState.RUNNING, []⟩ [errStep], [], []⟩

def runStep : StepT := StepT.mk ⟨"s3", WfState.RUNNING, "other"⟩ [] []

/-- A stored workflow whose step s3 is RUNNING with a nextcall already
pointing at another step: re-invoking s3 must hit the re-entry guard. -/
def exCls3 : WfCtx :=
  ⟨false, "f", WfInstT.mk ⟨"f", "x", WfState.RUNNING, []⟩ [runStep], [], []⟩

/-- A stored workflow whose step s4 exists in INITIALIZED with the default
nextcall, ready for a body run. -/
def exCls4 : WfCtx :=
  ⟨false, "f",
    WfInstT.mk ⟨"f", "x", WfState.RUNNING, []⟩
      [StepT.mk ⟨"s4", WfState.INITIALIZED, wf_default_call⟩ [] []], [], []⟩

/-- A body that mutates nothing and raises with traceback text boom. -/
def exBoomBody : WfCtx → WfCtx × Option String := fun s => (s, some "boom")

/-- A body that mutates nothing and returns normally. -/
def exNoneBody : WfCtx → WfCtx × Option String := fun s => (s, none)

/-- A workflow whose status is SLEEP. -/
def exSleepCls : WfCtx :=
  ⟨false, "f", WfInstT.mk ⟨"f", "x", WfState.SLEEP, []⟩ [], [], []⟩

/-- A three-workflow parent chain: 3 is a child of 2, 2 a child of root 1. -/
def exDb : List (Nat × WfRRec) :=
  [(1, ⟨none, ["r"]⟩), (2, ⟨some 1, []⟩), (3, ⟨some 2, []⟩)]

/-- An import table with one module whose attribute dictionary does not
contain the stored class name. -/
def exModules : String → Option (List String) := fun m =>
  if m = "aiida.workflows.demo" then some ["OtherClass", "helper"] else none

def exWfDb : Workflow.DbWfId :=
  ⟨"u-1", "aiida.workflows.demo", "MissingClass"⟩

def exRecords : List (Nat × Workflow.DbWfId) := [(5, exWfDb)]

/-
Helper lemmas about the record-store primitives.
-/

theorem stepT_eta (s : StepT) : StepT.mk s.sdata s.calcs s.subwfs = s := by
  cases s
  rfl

theorem wfInstT_eta (t : WfInstT) : WfInstT.mk t.data t.steps = t := by
  cases t
  rfl

theorem updateSteps_id (steps : List StepT) (n : String) :
    updateSteps steps n (fun s => s) = steps := by
  induction steps with
  | nil => rfl
  | cons s rest ih =>
      simp only [updateSteps, List.map_cons, if_pos, if_neg]
      by_cases h : s.name = n
      · simp only [updateSteps] at ih
        simp [h, ih]
      · simp only [updateSteps] at ih
        simp [h, ih]

theorem updateSteps_comp (steps : List StepT) (n : String) (f g : StepT → StepT)
    (hf : ∀ s, (f s).name = s.name) :
    updateSteps (updateSteps steps n f) n g = updateSteps steps n (fun s => g (f s)) := by
  induction steps with
  | nil => rfl
  | cons s rest ih =>
      simp only [updateSteps, List.map_cons] at ih ⊢
      by_cases h : s.name = n
      · simp [h, hf s, ih]
      · simp [h, ih]

theorem updateStepT_comp (inst : WfInstT) (n : String) (f g : StepT → StepT)
    (hf : ∀ s, (f s).name = s.name) :
    updateStepT (updateStepT inst n f) n g = updateStepT inst n (fun s => g (f s)) := by
  simp [updateStepT, WfInstT.data, WfInstT.steps, updateSteps_comp _ _ _ _ hf]

theorem data_updateStepT (inst : WfInstT) (n : String) (f : StepT → StepT) :
    (updateStepT inst n f).data = inst.data := rfl

theorem updateStepT_id (inst : WfInstT) (n : String) :
    updateStepT inst n (fun s => s) = inst := by
  cases inst with
  | mk d steps =>
      simp [updateStepT, WfInstT.data, WfInstT.steps, updateSteps_id]

theorem find?_updateSteps (steps : List StepT) (n : String) (f : StepT → StepT)
    (hf : ∀ s, (f s).name = s.name) :
    (updateSteps steps n f).find? (fun s => s.name = n)
      = (steps.find? (fun s => s.name = n)).map f := by
  induction steps with
  | nil => rfl
  | cons s rest ih =>
      by_cases h : s.name = n
      · have h1 : (if s.name = n then f s else s) = f s := if_pos h
        simp only [updateSteps, List.map_cons, h1]
        rw [List.find?_cons_of_pos, List.find?_cons_of_pos]
        · simp
        · simp [h]
        · simp [hf s, h]
      · have h1 : (if s.name = n then f s else s) = s := if_neg h
        simp only [updateSteps, List.map_cons, h1]
        rw [List.find?_cons_of_neg, List.find?_cons_of_neg]
        · simp only [updateSteps] at ih
          exact ih
        · simp [h]
        · simp [h]

theorem findStep_updateStepT (inst : WfInstT) (n : String) (f : StepT → StepT)
    (hf : ∀ s, (f s).name = s.name) :
    findStep (updateStepT inst n f) n = (findStep inst n).map f := by
  simp only [findStep, updateStepT, WfInstT.steps]
  exact find?_updateSteps inst.steps n f hf

theorem attachCalcsLoop_eq (n : String) (cs : List CalcRec) : ∀ inst : WfInstT,
    Workflow.attachCalcsLoop inst n cs
      = (updateStepT inst n (fun s => StepT.mk s.sdata (s.calcs ++ cs) s.subwfs),
         cs.map Event.attachCalc) := by
  induction cs with
  | nil =>
      intro inst
      have hfun : (fun s : StepT => StepT.mk s.sdata (s.calcs ++ []) s.subwfs)
          = fun s : StepT => s := by
        funext s
        rw [List.append_nil, stepT_eta]
      simp only [Workflow.attachCalcsLoop, List.map_nil]
      rw [hfun, updateStepT_id]
  | cons c cs ih =>
      intro inst
      simp only [Workflow.attachCalcsLoop, ih, List.map_cons]
      rw [updateStepT_comp inst n
        (fun s => StepT.mk s.sdata (s.calcs ++ [c]) s.subwfs) _ (fun s => rfl)]
      simp [StepT.sdata, StepT.calcs, StepT.subwfs, List.append_assoc]

theorem attachSubwfsLoop_eq (n : String) (ws : List WfInstT) : ∀ inst : WfInstT,
    Workflow.attachSubwfsLoop inst n ws
      = (updateStepT inst n (fun s => StepT.mk s.sdata s.calcs (s.subwfs ++ ws)),
         ws.map Event.attachSubwf) := by
  induction ws with
  | nil =>
      intro inst
      have hfun : (fun s : StepT => StepT.mk s.sdata s.calcs (s.subwfs ++ []))
          = fun s : StepT => s := by
        funext s
        rw [List.append_nil, stepT_eta]
      simp only [Workflow.attachSubwfsLoop, List.map_nil]
      rw [hfun, updateStepT_id]
  | cons w ws ih =>
      intro inst
      simp only [Workflow.attachSubwfsLoop, ih, List.map_cons]
      rw [updateStepT_comp inst n
        (fun s => StepT.mk s.sdata s.calcs (s.subwfs ++ [w])) _ (fun s => rfl)]
      simp [StepT.sdata, StepT.calcs, StepT.subwfs, List.append_assoc]

/-- Claim C9 counterexample: a workflow whose status is SLEEP.  The claim
states has_finished_ok returns false for SLEEP; the source
(workflow.py line 345) tests membership in [FINISHED, SLEEP], so it
returns true. -/
theorem c9_sleep_counterexample :
    exSleepCls.inst.data.status = WfState.SLEEP
      ∧ Workflow.has_finished_ok exSleepCls = true :=
  ⟨rfl, rfl⟩

/-- Claim C9 as amended: has_finished_ok returns true exactly when the
workflow status is FINISHED or SLEEP. -/
theorem c9_has_finished_ok_amended (cls : WfCtx) :
    Workflow.has_finished_ok cls = true
      ↔ (cls.inst.data.status = WfState.FINISHED
          ∨ cls.inst.data.status = WfState.SLEEP) := by
  cases h : cls.inst.data.status <;> simp [Workflow.has_finished_ok, h]

/-- Claim C10: when the module of a persisted workflow record imports
successfully but exposes no attribute named like the stored module_class,
get_subclass_from_dbnode returns None without raising, and
get_subclass_from_pk and get_subclass_from_uuid therefore return None for
an existing record. -/
theorem c10_resumer_returns_none
    (modules : String → Option (List String))
    (records : List (Nat × Workflow.DbWfId)) (pk : Nat) (uuid : String)
    (wfdb : Workflow.DbWfId) (dict : List String)
    (hpk : Workflow.lookupWfByPk records pk = some wfdb)
    (huuid : Workflow.lookupWfByUuid records uuid = some wfdb)
    (hmod : modules wfdb.module = some dict)
    (hmem : ¬ wfdb.module_class ∈ dict) :
    Workflow.get_subclass_from_dbnode modules wfdb = Except.ok none
    ∧ Workflow.get_subclass_from_pk modules records pk = Except.ok none
    ∧ Workflow.get_subclass_from_uuid modules records uuid = Except.ok none := by
  have hfind : dict.find? (fun elem_name => wfdb.module_class = elem_name) = none := by
    rw [List.find?_eq_none]
    intro x hx
    simp only [decide_eq_true_eq]
    intro hcontra
    exact hmem (hcontra ▸ hx)
  have hdb : Workflow.get_subclass_from_dbnode modules wfdb = Except.ok none := by
    simp [Workflow.get_subclass_from_dbnode, hmod, hfind]
  refine ⟨hdb, ?_, ?_⟩
  · simp [Workflow.get_subclass_from_pk, hpk, hdb]
  · simp [Workflow.get_subclass_from_uuid, huuid, hdb]

theorem lookupRec_updateRec_self (db : List (Nat × WfRRec)) (pk : Nat)
    (f : WfRRec → WfRRec) :
    lookupRec (updateRec db pk f) pk = (lookupRec db pk).map f := by
  induction db with
  | nil => rfl
  | cons p rest ih =>
      by_cases h : p.1 = pk
      · have h1 : (if p.1 = pk then (p.1, f p.2) else p) = (p.1, f p.2) := if_pos h
        simp only [updateRec, List.map_cons, h1, lookupRec]
        rw [List.find?_cons_of_pos, List.find?_cons_of_pos] <;> simp [h]
      · have h1 : (if p.1 = pk then (p.1, f p.2) else p) = p := if_neg h
        simp only [updateRec, List.map_cons, h1, lookupRec]
        rw [List.find?_cons_of_neg, List.find?_cons_of_neg]
        · simp only [updateRec, lookupRec] at ih
          exact ih
        · simp [h]
        · simp [h]

theorem lookupRec_updateRec_other (db : List (Nat × WfRRec)) (pk q : Nat)
    (f : WfRRec → WfRRec) (hq : ¬ q = pk) :
    lookupRec (updateRec db pk f) q = lookupRec db q := by
  induction db with
  | nil => rfl
  | cons p rest ih =>
      by_cases h : p.1 = pk
      · have hpq : ¬ p.1 = q := by
          rw [h]
          intro hcontra
          exact hq hcontra.symm
        have h1 : (if p.1 = pk then (p.1, f p.2) else p) = (p.1, f p.2) := if_pos h
        simp only [updateRec, List.map_cons, h1, lookupRec]
        rw [List.find?_cons_of_neg, List.find?_cons_of_neg]
        · simp only [updateRec, lookupRec] at ih
          exact ih
        · simp [hpq]
        · simp [hpq]
      · have h1 : (if p.1 = pk then (p.1, f p.2) else p) = p := if_neg h
        simp only [updateRec, List.map_cons, h1, lookupRec]
        by_cases h2 : p.1 = q
        · rw [List.find?_cons_of_pos, List.find?_cons_of_pos] <;> simp [h2]
        · rw [List.find?_cons_of_neg, List.find?_cons_of_neg]
          · simp only [updateRec, lookupRec] at ih
            exact ih
          · simp [h2]
          · simp [h2]

/-- Claim C8: append_to_report called on any workflow of a parent chain
appends the text to the report of the chain root and leaves every other
record, in particular the starting workflow itself when it is not the root,
unchanged. -/
theorem c8_report_appends_at_root (db : List (Nat × WfRRec)) (t : String) :
    ∀ (fuel pk : Nat) (db' : List (Nat × WfRRec)),
    Workflow.append_to_report db pk t fuel = some db' →
    ∃ r, Workflow.rootOf db pk fuel = some r
      ∧ lookupRec db' r
          = (lookupRec db r).map (fun q => { q with report := q.report ++ [t] })
      ∧ ∀ q, ¬ q = r → lookupRec db' q = lookupRec db q := by
  intro fuel
  induction fuel with
  | zero =>
      intro pk db' h
      simp [Workflow.append_to_report] at h
  | succ fuel ih =>
      intro pk db' h
      simp only [Workflow.append_to_report] at h
      cases hrec : lookupRec db pk with
      | none =>
          simp only [hrec] at h
          cases h
      | some r0 =>
          simp only [hrec] at h
          cases hp : r0.parent with
          | none =>
              simp only [hp] at h
              have hdb : updateRec db pk
                  (fun q => { q with report := q.report ++ [t] }) = db' :=
                Option.some.inj h
              refine ⟨pk, ?_, ?_, ?_⟩
              · simp [Workflow.rootOf, hrec, hp]
              · rw [← hdb]
                exact lookupRec_updateRec_self db pk _
              · intro q hq
                rw [← hdb]
                exact lookupRec_updateRec_other db pk q _ hq
          | some p =>
              simp only [hp] at h
              obtain ⟨r, h1, h2, h3⟩ := ih p db' h
              refine ⟨r, ?_, h2, h3⟩
              simp [Workflow.rootOf, hrec, hp, h1]

/-- Witness for C8: a three-deep chain; the append started at leaf 3 lands
on root 1 and leaves the reports of 2 and 3 unchanged. -/
theorem c8_report_appends_at_root_witness :
    Workflow.append_to_report exDb 3 "x" 10
      = some [(1, ⟨none, ["r", "x"]⟩), (2, ⟨some 1, []⟩), (3, ⟨some 2, []⟩)]
    ∧ ∃ r, Workflow.rootOf exDb 3 10 = some r
      ∧ lookupRec [(1, ⟨none, ["r", "x"]⟩), (2, ⟨some 1, []⟩), (3, ⟨some 2, []⟩)] r
          = (lookupRec exDb r).map (fun q => { q with report := q.report ++ ["x"] })
      ∧ ∀ q, ¬ q = r →
          lookupRec [(1, ⟨none, ["r", "x"]⟩), (2, ⟨some 1, []⟩), (3, ⟨some 2, []⟩)] q
            = lookupRec exDb q :=
  ⟨rfl, c8_report_appends_at_root exDb "x" 10 3 _ rfl⟩

theorem calcsAllFinished_kill (l : List CalcRec) :
    calcsAllFinished (kill_step_calculations l) = true := by
  induction l with
  | nil => rfl
  | cons c rest ih => simp [kill_step_calculations, calcsAllFinished, ih]

mutual
theorem killedClosureAuxWf : ∀ t : WfInstT, killedClosureWf (killWf t) = true
  | WfInstT.mk d steps => by
      simp [killWf, killedClosureWf, killedClosureAuxSteps steps]

theorem killedClosureAuxSteps :
    ∀ l : List StepT, killedClosureSteps (killRunningSteps l) = true
  | [] => rfl
  | s :: rest => by
      simp [killRunningSteps, killedClosureSteps, killedClosureAuxStep s,
        killedClosureAuxSteps rest]

theorem killedClosureAuxStep : ∀ s : StepT, killedClosureStep (killRunningStep s) = true
  | StepT.mk d calcs subwfs => by
      by_cases h : d.status = WfState.RUNNING
      · simp [killRunningStep, h, killedClosureStep, calcsAllFinished_kill,
          killedClosureAuxList subwfs]
      · simp [killRunningStep, h, killedClosureStep]

theorem killedClosureAuxList :
    ∀ l : List WfInstT, killedClosureList (killSubwfs l) = true
  | [] => rfl
  | w :: rest => by
      simp [killSubwfs, killedClosureList, killedClosureAuxWf w,
        killedClosureAuxList rest]
end

/-- Claim C7 counterexample: a workflow whose only step is in SLEEP and
holds a RUNNING sub-workflow.  kill() sets the workflow itself to FINISHED
but never visits the sub-workflow, because the kill loop only walks steps in
state RUNNING; so the claim that every descendant sub-workflow reachable
through any step ends FINISHED is false on the code. -/
theorem c7_kill_counterexample :
    (killWf exTree).data.status = WfState.FINISHED
      ∧ subwfsAllFinished (killWf exTree) = false :=
  ⟨rfl, rfl⟩

/-- Claim C7 as amended: after kill() the workflow status is FINISHED, and
along every chain of RUNNING steps the attached calculations are FINISHED
and the attached sub-workflows recursively satisfy the same closure;
sub-workflows attached to steps that are not RUNNING are not killed. -/
theorem c7_kill_closure (t : WfInstT) : killedClosureWf (killWf t) = true :=
  killedClosureAuxWf t

theorem findStep_mk_steps (d : WfData) (t : WfInstT) (n : String) :
    findStep (WfInstT.mk d t.steps) n = findStep t n := rfl

/-- Claim C1 (code bug): the integrity check of next() never looks at the
content of the file at script_path.  Workflow.store persists
md5(caller_file), the hexdigest of the path string itself, and
Workflow.next compares the persisted value with md5(script_path), again the
path string; so at a state whose file content has changed (here the content
fingerprint differs from the persisted md5) next() still succeeds and
performs all its mutations instead of failing. -/
theorem c1_fingerprint_code_bug :
    (Workflow.store exMd5 exFresh).inst.data.script_md5 = exMd5 "/wf/script.py"
    ∧ Workflow.contentFingerprint exMd5 exFs "/wf/script.py" ≠ exCls.inst.data.script_md5
    ∧ Workflow.next exMd5 exCls "s1" (some mMiddle)
        = Except.ok ({ exCls with inst := exInstAfterNext },
            [Event.attachCalc ⟨7, CalcState.RUNNING⟩, Event.setNextcall "middle",
             Event.setWfStatus WfState.RUNNING, Event.setStepStatus "s1" WfState.RUNNING]) :=
  ⟨rfl, by decide, rfl⟩

/-- Claim C6 (code bug): a next_method that is not decorated as a step does
not make next() fail with the NotAStep error.  The guard at lines 503-507
uses getattr with a default inside try/except AttributeError, which can
never raise, so the intended AiidaException is dead code: the third
conjunct shows no input whatsoever produces that error.  Instead the
undecorated method crashes the call later, at the plain attribute access
next_method.wf_step_name (line 526), with an AttributeError - after the
attachment buffers were already flushed.  The exit sentinel, by contrast,
is accepted and written as the nextcall, as the second conjunct shows. -/
theorem c6_notastep_guard_dead :
    Workflow.next exMd5 exCls "s1" (some mFoo)
        = Except.error (WfError.attributeError "wf_step_name")
    ∧ Workflow.next exMd5 exCls "s1" (some mExit)
        = Except.ok ({ exCls with inst := exInstAfterExit },
            [Event.attachCalc ⟨7, CalcState.RUNNING⟩, Event.setNextcall wf_exit_call,
             Event.setWfStatus WfState.RUNNING, Event.setStepStatus "s1" WfState.RUNNING])
    ∧ ∀ (md5 : String → String) (cls : WfCtx) (caller : String) (nm : Option Method),
        ¬ Workflow.next md5 cls caller nm
          = Except.error (WfError.aiidaException
              "Cannot add as next call a method not decorated as Workflow method") := by
  refine ⟨rfl, rfl, ?_⟩
  intro md5 cls caller nm
  by_cases h1 : cls.inst.data.script_md5 = md5 cls.inst.data.script_path
  · cases nm with
    | none =>
        simp [Workflow.next, h1, bind, Except.bind, pure, Except.pure, throw,
          throwThe, MonadExceptOf.throw]
    | some m =>
        by_cases h2 : caller = wf_exit_call
        · simp [Workflow.next, Workflow.has_step, Workflow.get_step, h1, h2,
            bind, Except.bind, pure, Except.pure, throw, throwThe, MonadExceptOf.throw]
        · cases h3 : findStep cls.inst caller with
          | none =>
              simp [Workflow.next, Workflow.has_step, Workflow.get_step, h1, h2, h3,
                bind, Except.bind, pure, Except.pure, throw, throwThe, MonadExceptOf.throw]
          | some st =>
              by_cases h4 : m.name = wf_exit_call
              · simp [Workflow.next, Workflow.has_step, Workflow.get_step, h1, h2, h3, h4,
                  bind, Except.bind, pure, Except.pure, throw, throwThe, MonadExceptOf.throw,
                  attachCalcsLoop_eq, attachSubwfsLoop_eq]
              · cases h5 : m.wf_step_name with
                | none =>
                    simp [Workflow.next, Workflow.has_step, Workflow.get_step, h1, h2, h3,
                      h4, h5, bind, Except.bind, pure, Except.pure, throw, throwThe,
                      MonadExceptOf.throw, attachCalcsLoop_eq, attachSubwfsLoop_eq]
                | some n =>
                    simp [Workflow.next, Workflow.has_step, Workflow.get_step, h1, h2, h3,
                      h4, h5, bind, Except.bind, pure, Except.pure, throw, throwThe,
                      MonadExceptOf.throw, attachCalcsLoop_eq, attachSubwfsLoop_eq]
  · simp [Workflow.next, h1, bind, Except.bind, pure, Except.pure, throw, throwThe,
      MonadExceptOf.throw]

/-- Claim C2: a successful next() flushes the buffered calculations, then
the buffered sub-workflows, each in insertion order, into the caller step
record, and only then writes the nextcall pointer, after which the workflow
and the caller step are set to RUNNING.  The emitted trace lists the writes
in program order; the final state carries the appended attachment lists,
the new nextcall and both RUNNING statuses. -/
theorem c2_flush_before_pointer
    (md5 : String → String) (cls : WfCtx) (caller : String) (nm : Method)
    (st : StepT) (nName : String)
    (hmd : cls.inst.data.script_md5 = md5 cls.inst.data.script_path)
    (hcaller : ¬ caller = wf_exit_call)
    (hfind : findStep cls.inst caller = some st)
    (hres : (¬ nm.name = wf_exit_call ∧ nm.wf_step_name = some nName)
        ∨ (nm.name = wf_exit_call ∧ nName = wf_exit_call)) :
    Workflow.next md5 cls caller (some nm)
        = Except.ok (Workflow.nextFinal cls caller nName,
            (lookupBuf cls.attach_calc_lazy_storage caller).map Event.attachCalc
              ++ (lookupBuf cls.attach_subwf_lazy_storage caller).map Event.attachSubwf
              ++ [Event.setNextcall nName, Event.setWfStatus WfState.RUNNING,
                  Event.setStepStatus caller WfState.RUNNING])
      ∧ findStep (Workflow.nextFinal cls caller nName).inst caller
          = some (StepT.mk ⟨st.name, WfState.RUNNING, nName⟩
              (st.calcs ++ lookupBuf cls.attach_calc_lazy_storage caller)
              (st.subwfs ++ lookupBuf cls.attach_subwf_lazy_storage caller))
      ∧ (Workflow.nextFinal cls caller nName).inst.data.status = WfState.RUNNING := by
  refine ⟨?_, ?_, ?_⟩
  · rcases hres with ⟨h4, h5⟩ | ⟨h4, h5⟩
    · simp [Workflow.next, Workflow.nextFinal, Workflow.has_step, Workflow.get_step,
        hmd, hcaller, hfind, h4, h5, bind, Except.bind, pure, Except.pure, throw,
        throwThe, MonadExceptOf.throw, attachCalcsLoop_eq, attachSubwfsLoop_eq]
    · subst h5
      simp [Workflow.next, Workflow.nextFinal, Workflow.has_step, Workflow.get_step,
        hmd, hcaller, hfind, h4, bind, Except.bind, pure, Except.pure, throw,
        throwThe, MonadExceptOf.throw, attachCalcsLoop_eq, attachSubwfsLoop_eq]
  · simp only [Workflow.nextFinal, attachCalcsLoop_eq, attachSubwfsLoop_eq]
    rw [findStep_updateStepT _ caller
        (fun s => StepT.mk ({ s.sdata with status := WfState.RUNNING }) s.calcs s.subwfs)
        (fun s => rfl)]
    rw [findStep_mk_steps]
    rw [findStep_updateStepT _ caller
        (fun s => StepT.mk ({ s.sdata with nextcall := nName }) s.calcs s.subwfs)
        (fun s => rfl)]
    rw [findStep_updateStepT _ caller
        (fun s => StepT.mk s.sdata s.calcs
          (s.subwfs ++ lookupBuf cls.attach_subwf_lazy_storage caller))
        (fun s => rfl)]
    rw [findStep_updateStepT _ caller
        (fun s => StepT.mk s.sdata
          (s.calcs ++ lookupBuf cls.attach_calc_lazy_storage caller) s.subwfs)
        (fun s => rfl)]
    rw [hfind]
    rfl
  · rfl

/-- Witness for C2 at a stored workflow with one buffered calculation for
the caller step s1 and next method middle. -/
theorem c2_flush_before_pointer_witness :
    exCls.inst.data.script_md5 = exMd5 exCls.inst.data.script_path
    ∧ ¬ "s1" = wf_exit_call
    ∧ findStep exCls.inst "s1" = some exStep1
    ∧ ((¬ mMiddle.name = wf_exit_call ∧ mMiddle.wf_step_name = some "middle")
        ∨ (mMiddle.name = wf_exit_call ∧ "middle" = wf_exit_call))
    ∧ (Workflow.next exMd5 exCls "s1" (some mMiddle)
        = Except.ok (Workflow.nextFinal exCls "s1" "middle",
            (lookupBuf exCls.attach_calc_lazy_storage "s1").map Event.attachCalc
              ++ (lookupBuf exCls.attach_subwf_lazy_storage "s1").map Event.attachSubwf
              ++ [Event.setNextcall "middle", Event.setWfStatus WfState.RUNNING,
                  Event.setStepStatus "s1" WfState.RUNNING])
      ∧ findStep (Workflow.nextFinal exCls "s1" "middle").inst "s1"
          = some (StepT.mk ⟨exStep1.name, WfState.RUNNING, "middle"⟩
              (exStep1.calcs ++ lookupBuf exCls.attach_calc_lazy_storage "s1")
              (exStep1.subwfs ++ lookupBuf exCls.attach_subwf_lazy_storage "s1"))
      ∧ (Workflow.nextFinal exCls "s1" "middle").inst.data.status = WfState.RUNNING) :=
  ⟨rfl, by decide, rfl, Or.inl ⟨by decide, rfl⟩,
    c2_flush_before_pointer exMd5 exCls "s1" mMiddle exStep1 "middle" rfl (by decide)
      rfl (Or.inl ⟨by decide, rfl⟩)⟩

/-- Claim C3: invoking a decorated step method whose existing step record
has a status other than ERROR and SLEEP and a nextcall that is neither the
default sentinel nor the method itself fails with the
StepAlreadyInitialized error, whatever the body is - so the body never
runs. -/
theorem c3_reentry_guard
    (md5 : String → String) (cls : WfCtx) (wrapped : String) (st : StepT)
    (hstored : cls.to_be_stored = false)
    (hwrapped : ¬ wrapped = wf_exit_call)
    (hfind : findStep cls.inst wrapped = some st)
    (hne : ¬ st.status = WfState.ERROR) (hns : ¬ st.status = WfState.SLEEP)
    (hnd : ¬ st.nextcall = wf_default_call) (hnm : ¬ st.nextcall = wrapped) :
    ∀ body, Workflow.stepWrapper md5 wrapped body 0 cls
      = Except.error (WfError.aiidaException
          ("The step " ++ wrapped
            ++ " has already been initialized, cannot change this outside the parent workflow !")) := by
  intro body
  have hpre : Workflow.stepWrapperPre md5 wrapped 0 cls
      = Except.error (WfError.aiidaException
          ("The step " ++ wrapped
            ++ " has already been initialized, cannot change this outside the parent workflow !")) := by
    simp [Workflow.stepWrapperPre, Workflow.has_step, Workflow.get_step, hstored,
      hwrapped, hfind, hne, hns, hnd, hnm, bind, Except.bind, pure, Except.pure,
      throw, throwThe, MonadExceptOf.throw, beq_iff_eq]
  simp [Workflow.stepWrapper, hpre, bind, Except.bind]

/-- Witness for C3 at a workflow whose step s3 is RUNNING with nextcall
already pointing at another step. -/
theorem c3_reentry_guard_witness :
    exCls3.to_be_stored = false
    ∧ ¬ "s3" = wf_exit_call
    ∧ findStep exCls3.inst "s3" = some runStep
    ∧ ¬ runStep.status = WfState.ERROR
    ∧ ¬ runStep.status = WfState.SLEEP
    ∧ ¬ runStep.nextcall = wf_default_call
    ∧ ¬ runStep.nextcall = "s3"
    ∧ Workflow.stepWrapper exMd5 "s3" exNoneBody 0 exCls3
        = Except.error (WfError.aiidaException
            ("The step " ++ "s3"
              ++ " has already been initialized, cannot change this outside the parent workflow !")) :=
  ⟨rfl, by decide, rfl, by decide, by decide, by decide, by decide,
    c3_reentry_guard exMd5 exCls3 "s3" runStep rfl (by decide) rfl (by decide)
      (by decide) (by decide) (by decide) exNoneBody⟩

/-- Claim C4: invoking a decorated step method whose step record is in
ERROR or SLEEP first kills each attached sub-workflow recursively
(Workflow.kill), clears the sub-workflow list, kills each attached
calculation, and clears the calculation list, in that order (the emitted
trace); both attachment lists of the step are empty in the state the body
receives, as the second and third conjuncts show. -/
theorem c4_clean_restart
    (md5 : String → String) (cls : WfCtx) (wrapped : String) (st : StepT)
    (hstored : cls.to_be_stored = false)
    (hwrapped : ¬ wrapped = wf_exit_call)
    (hfind : findStep cls.inst wrapped = some st)
    (hes : st.status = WfState.ERROR ∨ st.status = WfState.SLEEP) :
    Workflow.stepWrapperPre md5 wrapped 0 cls
        = Except.ok ({ cls with inst := (Workflow.cleanupStep cls.inst wrapped st).1 },
            st.subwfs.map (fun w => Event.killedSubwf (killWf w))
              ++ [Event.clearedSubwfs]
              ++ st.calcs.map (fun c => Event.killedCalc (calcKill c))
              ++ [Event.clearedCalcs, Event.stepGetOrCreate wrapped])
      ∧ findStep (Workflow.cleanupStep cls.inst wrapped st).1 wrapped
          = some (StepT.mk st.sdata [] [])
      ∧ ∀ body s1,
          body { cls with inst := (Workflow.cleanupStep cls.inst wrapped st).1 }
            = (s1, none) →
          Workflow.stepWrapper md5 wrapped body 0 cls
            = Except.ok (s1,
                st.subwfs.map (fun w => Event.killedSubwf (killWf w))
                  ++ [Event.clearedSubwfs]
                  ++ st.calcs.map (fun c => Event.killedCalc (calcKill c))
                  ++ [Event.clearedCalcs, Event.stepGetOrCreate wrapped]) := by
  have hf1 : findStep (Workflow.cleanupStep cls.inst wrapped st).1 wrapped
      = some (StepT.mk st.sdata [] []) := by
    simp only [Workflow.cleanupStep]
    rw [findStep_updateStepT _ wrapped
        (fun s => StepT.mk s.sdata [] s.subwfs) (fun s => rfl)]
    rw [findStep_updateStepT _ wrapped
        (fun s => StepT.mk s.sdata (s.calcs.map calcKill) s.subwfs) (fun s => rfl)]
    rw [findStep_updateStepT _ wrapped
        (fun s => StepT.mk s.sdata s.calcs []) (fun s => rfl)]
    rw [findStep_updateStepT _ wrapped
        (fun s => StepT.mk s.sdata s.calcs (s.subwfs.map killWf)) (fun s => rfl)]
    rw [hfind]
    rfl
  have hev : (Workflow.cleanupStep cls.inst wrapped st).2
      = st.subwfs.map (fun w => Event.killedSubwf (killWf w))
        ++ [Event.clearedSubwfs]
        ++ st.calcs.map (fun c => Event.killedCalc (calcKill c))
        ++ [Event.clearedCalcs] := by
    simp [Workflow.cleanupStep]
  have hpre : Workflow.stepWrapperPre md5 wrapped 0 cls
      = Except.ok ({ cls with inst := (Workflow.cleanupStep cls.inst wrapped st).1 },
          st.subwfs.map (fun w => Event.killedSubwf (killWf w))
            ++ [Event.clearedSubwfs]
            ++ st.calcs.map (fun c => Event.killedCalc (calcKill c))
            ++ [Event.clearedCalcs, Event.stepGetOrCreate wrapped]) := by
    rcases hes with h | h <;>
      simp [Workflow.stepWrapperPre, Workflow.has_step, Workflow.get_step, hstored,
        hwrapped, hfind, h, hf1, bind, Except.bind, pure, Except.pure,
        throw, throwThe, MonadExceptOf.throw, beq_iff_eq, hev]
  refine ⟨hpre, hf1, ?_⟩
  intro body s1 hbody
  simp [Workflow.stepWrapper, hpre, hbody, bind, Except.bind, pure, Except.pure]

/-- Witness for C4 at a workflow whose step s2 is in ERROR with one
attached calculation and one attached sub-workflow. -/
theorem c4_clean_restart_witness :
    exCls2.to_be_stored = false
    ∧ ¬ "s2" = wf_exit_call
    ∧ findStep exCls2.inst "s2" = some errStep
    ∧ (errStep.status = WfState.ERROR ∨ errStep.status = WfState.SLEEP)
    ∧ (Workflow.stepWrapperPre exMd5 "s2" 0 exCls2
        = Except.ok ({ exCls2 with inst := (Workflow.cleanupStep exCls2.inst "s2" errStep).1 },
            errStep.subwfs.map (fun w => Event.killedSubwf (killWf w))
              ++ [Event.clearedSubwfs]
              ++ errStep.calcs.map (fun c => Event.killedCalc (calcKill c))
              ++ [Event.clearedCalcs, Event.stepGetOrCreate "s2"])
      ∧ findStep (Workflow.cleanupStep exCls2.inst "s2" errStep).1 "s2"
          = some (StepT.mk errStep.sdata [] [])
      ∧ ∀ body s1,
          body { exCls2 with inst := (Workflow.cleanupStep exCls2.inst "s2" errStep).1 }
            = (s1, none) →
          Workflow.stepWrapper exMd5 "s2" body 0 exCls2
            = Except.ok (s1,
                errStep.subwfs.map (fun w => Event.killedSubwf (killWf w))
                  ++ [Event.clearedSubwfs]
                  ++ errStep.calcs.map (fun c => Event.killedCalc (calcKill c))
                  ++ [Event.clearedCalcs, Event.stepGetOrCreate "s2"])) :=
  ⟨rfl, by decide, rfl, Or.inl rfl,
    c4_clean_restart exMd5 exCls2 "s2" errStep rfl (by decide) rfl (Or.inl rfl)⟩

/-- Claim C5: when the pre-body phase succeeds and the body raises, the
wrapper catches the exception, appends the error line and the full
traceback line to the report, sets the step status to ERROR, and returns
normally (Except.ok) - no exception propagates out of the invoker. -/
theorem c5_body_exception_caught
    (md5 : String → String) (wrapped : String)
    (body : WfCtx → WfCtx × Option String) (cls pre : WfCtx)
    (tr : List Event) (s1 : WfCtx) (tb : String)
    (hpre : Workflow.stepWrapperPre md5 wrapped 0 cls = Except.ok (pre, tr))
    (hbody : body pre = (s1, some tb)) :
    ∃ final : WfCtx,
      Workflow.stepWrapper md5 wrapped body 0 cls
          = Except.ok (final, tr ++ [Event.setStepStatus wrapped WfState.ERROR])
      ∧ final.inst.data.report
          = s1.inst.data.report
            ++ ["ERROR ! This workflow got and error in the " ++ wrapped
                  ++ " method, we report down the stack trace",
                "full traceback: " ++ tb]
      ∧ (findStep final.inst wrapped).map StepT.status
          = (findStep s1.inst wrapped).map (fun _ => WfState.ERROR) := by
  refine ⟨{ Workflow.appendReportRoot (Workflow.appendReportRoot s1
      ("ERROR ! This workflow got and error in the " ++ wrapped
        ++ " method, we report down the stack trace")) ("full traceback: " ++ tb) with
      inst := updateStepT (Workflow.appendReportRoot (Workflow.appendReportRoot s1
          ("ERROR ! This workflow got and error in the " ++ wrapped
            ++ " method, we report down the stack trace")) ("full traceback: " ++ tb)).inst
        wrapped
        (fun s => StepT.mk ({ s.sdata with status := WfState.ERROR }) s.calcs s.subwfs) },
    ?_, ?_, ?_⟩
  · simp [Workflow.stepWrapper, hpre, hbody, bind, Except.bind, pure, Except.pure]
  · simp only [data_updateStepT]
    simp [Workflow.appendReportRoot, WfInstT.data, WfInstT.steps, List.append_assoc]
  · rw [findStep_updateStepT _ wrapped
        (fun s => StepT.mk ({ s.sdata with status := WfState.ERROR }) s.calcs s.subwfs)
        (fun s => rfl)]
    rw [show (Workflow.appendReportRoot (Workflow.appendReportRoot s1
        ("ERROR ! This workflow got and error in the " ++ wrapped
          ++ " method, we report down the stack trace")) ("full traceback: " ++ tb)).inst
        = WfInstT.mk (Workflow.appendReportRoot (Workflow.appendReportRoot s1
            ("ERROR ! This workflow got and error in the " ++ wrapped
              ++ " method, we report down the stack trace")) ("full traceback: " ++ tb)).inst.data
          s1.inst.steps from rfl]
    rw [findStep_mk_steps]
    cases hx : findStep s1.inst wrapped <;> simp [hx, StepT.status, StepT.sdata]

/-- Witness for C5 at a workflow whose step s4 is INITIALIZED and a body
that raises with traceback text boom. -/
theorem c5_body_exception_caught_witness :
    Workflow.stepWrapperPre exMd5 "s4" 0 exCls4
        = Except.ok (exCls4, [Event.stepGetOrCreate "s4"])
    ∧ exBoomBody exCls4 = (exCls4, some "boom")
    ∧ (∃ final : WfCtx,
        Workflow.stepWrapper exMd5 "s4" exBoomBody 0 exCls4
            = Except.ok (final,
                [Event.stepGetOrCreate "s4"]
                  ++ [Event.setStepStatus "s4" WfState.ERROR])
        ∧ final.inst.data.report
            = exCls4.inst.data.report
              ++ ["ERROR ! This workflow got and error in the " ++ "s4"
                    ++ " method, we report down the stack trace",
                  "full traceback: " ++ "boom"]
        ∧ (findStep final.inst "s4").map StepT.status
            = (findStep exCls4.inst "s4").map (fun _ => WfState.ERROR)) :=
  ⟨rfl, rfl,
    c5_body_exception_caught exMd5 "s4" exBoomBody exCls4 exCls4
      [Event.stepGetOrCreate "s4"] exCls4 "boom" rfl rfl⟩

/-- Witness for C10 at a concrete record whose module exports no attribute
with the stored class name. -/
theorem c10_resumer_returns_none_witness :
    Workflow.lookupWfByPk exRecords 5 = some exWfDb
    ∧ Workflow.lookupWfByUuid exRecords "u-1" = some exWfDb
    ∧ exModules exWfDb.module = some ["OtherClass", "helper"]
    ∧ ¬ exWfDb.module_class ∈ ["OtherClass", "helper"]
    ∧ (Workflow.get_subclass_from_dbnode exModules exWfDb = Except.ok none
        ∧ Workflow.get_subclass_from_pk exModules exRecords 5 = Except.ok none
        ∧ Workflow.get_subclass_from_uuid exModules exRecords "u-1" = Except.ok none) :=
  ⟨rfl, rfl, rfl, by decide,
    c10_resumer_returns_none exModules exRecords 5 "u-1" exWfDb
      ["OtherClass", "helper"] rfl rfl rfl (by decide)⟩

end AiidaWf
